import Mathlib

/-!
Verification of the newschomp multi-source discovery-and-deduplication core.

The development shallowly embeds the relevant parts of the repository:

* the URL Canonicalizer (`normalize_url`), the Seen-Set Store (`mark_url_seen`,
  `get_seen_urls`) and the Discovery Pipeline (`fetch_article_from_sources`) are
  imported by `chomp/tests.py` from `chomp.views` but absent from the source tree;
  they are modelled from the specification, as the doc comments say;
* the Summarizer (`generate_summary` in `chomp/utils.py`), the AP News discover
  step (`APNewsSource.search` in `chomp/sources/apnews.py`), the Geolocation
  Resolver (`find_nearest_source` and `get_local_sources_with_locations` in
  `chomp/sources/__init__.py`) are translated directly from the source; effects
  (HTTP transport, the environment, the LLM call) are hoisted into explicit
  function parameters, and Python exceptions become `Except` values.

Machine floats of the geolocation code are modelled as real numbers; Python
strings as Lean `String`.
-/

/-- Python exception kinds that the embedded code can raise. -/
inductive PyErr where
  | attributeError
  | typeError
  | requestException
  deriving DecidableEq

/- ## URL Canonicalizer -/

/-- Value of a hexadecimal digit character, as accepted by `urllib.parse.unquote`. -/
def hexVal (c : Char) : Option Nat :=
  if '0' ≤ c ∧ c ≤ '9' then some (c.toNat - '0'.toNat)
  else if 'a' ≤ c ∧ c ≤ 'f' then some (c.toNat - 'a'.toNat + 10)
  else if 'A' ≤ c ∧ c ≤ 'F' then some (c.toNat - 'A'.toNat + 10)
  else none

/-- One left-to-right pass of percent-decoding: `%XY` with two hex digits becomes the
character with code `16*X + Y`; a `%` not followed by two hex digits stays literal.
The output of a decoded escape is never rescanned.  Escapes are decoded at byte
granularity (multi-byte UTF-8 sequences are kept as individual bytes). -/
def pdoAux : Nat → List Char → List Char
  | 0, l => l
  | _ + 1, [] => []
  | fuel + 1, c :: rest =>
    if c = '%' then
      match rest with
      | a :: b :: rest2 =>
        match hexVal a, hexVal b with
        | some ha, some hb => Char.ofNat (16 * ha + hb) :: pdoAux fuel rest2
        | _, _ => c :: pdoAux fuel (a :: b :: rest2)
      | _ => c :: pdoAux fuel rest
    else c :: pdoAux fuel rest

/-- One pass over the whole string.  The fuel argument of `pdoAux` only serves
structural termination: every step consumes at least one character, so a fuel equal
to the length is never exhausted. -/
def percentDecodeOnce (l : List Char) : List Char := pdoAux l.length l

/-- Modelled from the spec: the URL Canonicalizer `normalize_url` is imported by
`chomp/tests.py` from `chomp.views` but is missing from the source tree.  Per the
specification it decodes percent-escapes across the whole URL in a single
non-recursive pass, then rebuilds the URL with the fragment component cleared while
every other component passes through unchanged; clearing the fragment keeps exactly
the part of the URL before the first `#`. -/
def normalize_url (url : String) : String :=
  String.mk ((percentDecodeOnce url.data).takeWhile (fun c => c ≠ '#'))

/- ## Seen-Set Store -/

/-- Lookup in a Python dict modelled as an insertion-ordered association list. -/
def dictLookup {β : Type} : List (String × β) → String → Option β
  | [], _ => none
  | (k2, v) :: rest, k => if k2 = k then some v else dictLookup rest k

/-- Assignment `d[k] = v` on a Python dict: replace the value in place when the key
exists, otherwise append the new entry at the end. -/
def dictInsert {β : Type} : List (String × β) → String → β → List (String × β)
  | [], k, v => [(k, v)]
  | (k2, v2) :: rest, k, v =>
    if k2 = k then (k, v) :: rest else (k2, v2) :: dictInsert rest k v

/-- Modelled from the spec: insertion into one category's bounded seen-URL
collection.  Inserting a present URL is a no-op; otherwise the URL is appended at
the end and, when the collection then exceeds 100 entries, entries are evicted from
the front until exactly 100 remain. -/
def markSeenCat (current : List String) (u : String) : List String :=
  if u ∈ current then current
  else
    let updated := current ++ [u]
    if updated.length > 100 then updated.drop (updated.length - 100) else updated

/-- Modelled from the spec: `get_seen_urls` is imported by `chomp/tests.py` from
`chomp.views` but missing from the source tree.  It returns the category's seen
list, or the empty list for an unknown category. -/
def get_seen_urls (store : List (String × List String)) (category : String) :
    List String :=
  (dictLookup store category).getD []

/-- Modelled from the spec: `mark_url_seen` is imported by `chomp/tests.py` from
`chomp.views` but missing from the source tree.  A `None` or empty URL is a no-op;
otherwise the URL is inserted into the named category's bounded collection. -/
def mark_url_seen (store : List (String × List String)) (url : Option String)
    (category : String) : List (String × List String) :=
  match url with
  | none => store
  | some u =>
    if u = "" then store
    else dictInsert store category (markSeenCat (get_seen_urls store category) u)

/-- A whole session history: apply a sequence of `mark_url_seen` operations
(URL, category) to the initially empty store. -/
def applyOps (ops : List (Option String × String)) : List (String × List String) :=
  ops.foldl (fun st p => mark_url_seen st p.1 p.2) []

/-- The Seen-Set Store invariant: every category's collection is duplicate-free and
holds at most 100 entries. -/
def storeInv (store : List (String × List String)) : Prop :=
  ∀ p ∈ store, p.2.Nodup ∧ p.2.length ≤ 100

/- ## Summarizer (`generate_summary`, `chomp/utils.py`) -/

/-- Result of a successful summary generation: the parsed AI title (absent when no
`TITLE:` line occurred in the model output) and the joined summary lines. -/
structure SummaryResult where
  ai_title : Option String
  summary : String
  deriving DecidableEq

/-- Parsing of the model output in `generate_summary` (`chomp/utils.py`): split into
lines, take the (last) `TITLE:`-prefixed line as the AI title with the sentinel
removed, and join the remaining non-empty stripped lines in order. -/
def parseSummary (text : String) : Option String × String :=
  let step := fun (acc : Option String × List String) (line : String) =>
    let l := line.trim
    if l.startsWith "TITLE:" then (some ((l.replace "TITLE:" "").trim), acc.2)
    else if l ≠ "" then (acc.1, acc.2 ++ [l])
    else acc
  let r := (text.splitOn "\n").foldl step (none, [])
  (r.1, String.intercalate "\n" r.2)

/-- Embedding of `generate_summary` (`chomp/utils.py`, lines 110-186).  The
`OPENAI_API_KEY` environment variable and the chat-completion call are hoisted into
the parameters `apiKey` and `callModel`; a raised exception of the external call is
the `Except.error` case, caught by the function's `try` block.  Empty or absent
content returns `none` before the key is even read; a missing or empty key returns
`none`; the content is truncated to its first 4000 characters before being sent. -/
def generate_summary (content : Option String) (apiKey : Option String)
    (callModel : String → Except Unit String) : Option SummaryResult :=
  match content with
  | none => none
  | some c =>
    if c = "" then none
    else
      match apiKey with
      | none => none
      | some key =>
        if key = "" then none
        else
          match callModel (c.take 4000) with
          | Except.error _ => none
          | Except.ok response =>
            let p := parseSummary response.trim
            some { ai_title := p.1, summary := p.2 }

/- ## Discovery Pipeline -/

/-- The structured record a source's `extract` returns: a Python dict whose values
may be `None`.  A missing or empty title or URL is the extraction-failure marker. -/
structure ExtractData where
  title : Option String
  url : Option String
  pub_date : Option Int
  content : Option String
  image_url : Option String
  topics : List String
  deriving DecidableEq

/-- The pipeline's output unit (spec: Article Record): title and canonical URL are
non-empty on a returned record, AI title and summary are empty strings when the
Summarizer returned absent. -/
structure ArticleRecord where
  url : String
  title : String
  pub_date : Option Int
  content : String
  summary : String
  ai_title : String
  image_url : String
  topics : List String
  source : String
  deriving DecidableEq

/-- A source adapter as the Discovery Pipeline consumes it: the candidate URLs its
discover step returns, its fetch step (which may raise: `Except.error`), and its
extract step on a fetched document. -/
structure SourceModel where
  searchResults : List String
  fetchResult : String → Except Unit String
  extractResult : String → ExtractData

/-- Enrichment step of the pipeline: the Summarizer is consulted only when the
extracted record carries non-empty content. -/
def enrich (summarize : String → Option SummaryResult) (d : ExtractData) :
    Option SummaryResult :=
  match d.content with
  | none => none
  | some c => if c = "" then none else summarize c

/-- Construction of the returned Article Record from the extracted data and the
(possibly absent) Summarizer result: absent optional fields become empty strings,
and an absent Summarizer result yields empty-string `ai_title` and `summary`. -/
def buildArticle (sourceKey : String) (d : ExtractData) (ai : Option SummaryResult) :
    ArticleRecord :=
  { url := d.url.getD ""
    title := d.title.getD ""
    pub_date := d.pub_date
    content := d.content.getD ""
    summary := (ai.map (fun s => s.summary)).getD ""
    ai_title := (ai.bind (fun s => s.ai_title)).getD ""
    image_url := d.image_url.getD ""
    topics := d.topics
    source := sourceKey }

/-- Modelled from the spec: the candidate scan of one source inside
`fetch_article_from_sources` (missing from the source tree, exercised by
`FetchArticlePipelineTests`).  Per the specification, each candidate URL is
canonicalized and skipped without fetching when already seen; a fetch failure or an
extraction-failure marker (missing title or URL) moves on to the next candidate; the
URL reported by the extracted record is canonicalized and re-checked; the first
genuine success is returned immediately.  The second component of the result is the
list of URLs for which the adapter's fetch was invoked, in order. -/
def scanCandidates (sourceKey : String) (src : SourceModel)
    (summarize : String → Option SummaryResult) (seen : List String) :
    List String → Option ArticleRecord × List String
  | [] => (none, [])
  | u :: rest =>
    if normalize_url u ∈ seen then scanCandidates sourceKey src summarize seen rest
    else
      match src.fetchResult u with
      | Except.error _ =>
        let p := scanCandidates sourceKey src summarize seen rest
        (p.1, u :: p.2)
      | Except.ok doc =>
        let d := src.extractResult doc
        if d.title.getD "" ≠ "" ∧ d.url.getD "" ≠ "" then
          if normalize_url (d.url.getD "") ∈ seen then
            let p := scanCandidates sourceKey src summarize seen rest
            (p.1, u :: p.2)
          else (some (buildArticle sourceKey d (enrich summarize d)), [u])
        else
          let p := scanCandidates sourceKey src summarize seen rest
          (p.1, u :: p.2)

/-- Python's `str.lower`, character by character. -/
def pyLower (s : String) : String := String.mk (s.data.map Char.toLower)

/-- Embedding of `get_source` (`chomp/sources/__init__.py`): case-insensitive
dictionary lookup in the registry, `none` for an unknown key. -/
def getSource (registry : List (String × SourceModel)) (name : String) :
    Option SourceModel :=
  dictLookup registry (pyLower name)

/-- Modelled from the spec: `fetch_article_from_sources` is imported by
`chomp/tests.py` from `chomp.views` but missing from the source tree.  It walks the
candidate source keys in the given (already shuffled) order, skips keys the registry
does not resolve, scans each resolved source's discovered candidates, and returns
the first success, or `(none, _)` when every source is exhausted.  The second
component accumulates every URL for which some adapter's fetch was invoked. -/
def fetch_article_from_sources (registry : List (String × SourceModel))
    (summarize : String → Option SummaryResult) (sourceKeys : List String)
    (seenUrls : List String) : Option ArticleRecord × List String :=
  match sourceKeys with
  | [] => (none, [])
  | k :: rest =>
    match getSource registry k with
    | none => fetch_article_from_sources registry summarize rest seenUrls
    | some src =>
      let p := scanCandidates k src summarize seenUrls src.searchResults
      match p.1 with
      | some a => (some a, p.2)
      | none =>
        let q := fetch_article_from_sources registry summarize rest seenUrls
        (q.1, p.2 ++ q.2)

/- ## AP News discover step (`chomp/sources/apnews.py`) -/

/-- Embedding of `APNewsSource.search` (`chomp/sources/apnews.py`, lines 20-77).
The HTTP GET of the search page together with `raise_for_status` is the `transport`
parameter; the HTML-selector extraction of the promo-title link `href`s is the
`promoHrefs` parameter (absent links are `none`).  The function body performs no
exception handling: a transport failure propagates to the caller, and a missing
query is a `TypeError` from `urllib.parse.quote(None)`.  Collected hrefs are
absolutized against `https://apnews.com` and kept only when they contain
`/article/`. -/
def apnews_search (query : Option String) (transport : Except PyErr String)
    (promoHrefs : String → List (Option String)) : Except PyErr (List String) :=
  match query with
  | none => Except.error PyErr.typeError
  | some _ =>
    match transport with
    | Except.error e => Except.error e
    | Except.ok page =>
      let step := fun (acc : List String) (href : Option String) =>
        match href with
        | none => acc
        | some h =>
          if h = "" then acc
          else
            let absUrl := if h.startsWith "http" then h else "https://apnews.com" ++ h
            if (absUrl.splitOn "/article/").length ≥ 2 then acc ++ [absUrl] else acc
      Except.ok ((promoHrefs page).foldl step [])

/- ## Geolocation Resolver (`chomp/sources/__init__.py`) -/

/-- A source descriptor with a physical location, as produced by
`get_local_sources_with_locations`. -/
structure LocatedSource (β : Type) where
  source_key : String
  name : String
  latitude : β
  longitude : β
  city : String

/-- The selection loop of `find_nearest_source`: `min_distance` starts at infinity
(`none`) and the running best is replaced exactly when a source's distance is
strictly smaller, so the first source attaining the overall minimum wins. -/
def findNearestLoop {α β : Type} [LinearOrder β] (dist : α → β) :
    Option (α × β) → List α → Option (α × β)
  | best, [] => best
  | best, s :: rest =>
    match best with
    | none => findNearestLoop dist (some (s, dist s)) rest
    | some (b, m) =>
      if dist s < m then findNearestLoop dist (some (s, dist s)) rest
      else findNearestLoop dist (some (b, m)) rest

/-- The first element of a list attaining the minimum of `dist`, used to
characterize `findNearestLoop`. -/
def firstArgmin {α β : Type} [LinearOrder β] (dist : α → β) : List α → Option α
  | [] => none
  | s :: rest =>
    match firstArgmin dist rest with
    | none => some s
    | some r => if dist r < dist s then some r else some s

/-- Degrees to radians, as `math.radians`. -/
noncomputable def radians (x : ℝ) : ℝ := x * Real.pi / 180

/-- Embedding of `haversine_distance` inside `find_nearest_source`
(`chomp/sources/__init__.py`, lines 147-155), with Earth radius 6371 km; machine
floats are modelled as real numbers. -/
noncomputable def haversine_distance (lat1 lon1 lat2 lon2 : ℝ) : ℝ :=
  let lat1r := radians lat1
  let lon1r := radians lon1
  let lat2r := radians lat2
  let lon2r := radians lon2
  let dlat := lat2r - lat1r
  let dlon := lon2r - lon1r
  let a := Real.sin (dlat / 2) ^ 2 +
    Real.cos lat1r * Real.cos lat2r * Real.sin (dlon / 2) ^ 2
  let c := 2 * Real.arcsin (Real.sqrt a)
  6371 * c

/- ## Registry location filtering (`get_local_sources_with_locations`) -/

/-- A registered adapter as `get_local_sources_with_locations` observes it: its
identity plus the optional `latitude`, `longitude` and `city` properties.  `none`
models the property being absent from the adapter class, so that reading it raises
`AttributeError`, exactly as in Python. -/
structure AdapterModel where
  source_key : String
  name : String
  latitude : Option ℚ
  longitude : Option ℚ
  city : Option String

/-- Embedding of `get_local_sources_with_locations`
(`chomp/sources/__init__.py`, lines 59-77).  For each configured local source key,
the adapter is resolved (an unknown key is skipped); then
`source.latitude and source.longitude` is evaluated with Python short-circuit
semantics: reading an absent property raises `AttributeError`, a zero value is
falsy and skips the adapter; adapters passing the check are collected in order with
their location data. -/
def get_local_sources_with_locations (registry : List (String × AdapterModel)) :
    List String → Except PyErr (List (LocatedSource ℚ))
  | [] => Except.ok []
  | k :: rest =>
    match dictLookup registry (pyLower k) with
    | none => get_local_sources_with_locations registry rest
    | some a =>
      match a.latitude with
      | none => Except.error PyErr.attributeError
      | some lat =>
        if lat = 0 then get_local_sources_with_locations registry rest
        else
          match a.longitude with
          | none => Except.error PyErr.attributeError
          | some lng =>
            if lng = 0 then get_local_sources_with_locations registry rest
            else
              match a.city with
              | none => Except.error PyErr.attributeError
              | some c =>
                match get_local_sources_with_locations registry rest with
                | Except.error e => Except.error e
                | Except.ok tail =>
                  Except.ok
                    ({ source_key := a.source_key, name := a.name, latitude := lat,
                       longitude := lng, city := c } :: tail)

/-- Conversion of a located descriptor's registry coordinates (exact rationals in
the registry model) into the real numbers the distance computation works with. -/
noncomputable def toRealLoc (s : LocatedSource ℚ) : LocatedSource ℝ :=
  { source_key := s.source_key, name := s.name, latitude := (s.latitude : ℝ),
    longitude := (s.longitude : ℝ), city := s.city }

/-- Embedding of `find_nearest_source` (`chomp/sources/__init__.py`, lines
134-173).  The function first calls `get_local_sources_with_locations()`
internally; it installs no exception handler, so an exception raised there
propagates to the caller.  When the collected list is empty it returns `None`;
otherwise it runs the strict-minimum selection loop over the haversine distances.
The returned distance is the exact minimum; the 2-decimal display rounding of
`distance_km` is not modelled. -/
noncomputable def find_nearest_source (userLat userLng : ℝ)
    (registry : List (String × AdapterModel)) (localKeys : List String) :
    Except PyErr (Option (LocatedSource ℝ × ℝ)) :=
  match get_local_sources_with_locations registry localKeys with
  | Except.error e => Except.error e
  | Except.ok sources =>
    let sourcesR := sources.map toRealLoc
    if sourcesR.isEmpty then Except.ok none
    else
      Except.ok (findNearestLoop
        (fun s => haversine_distance userLat userLng s.latitude s.longitude)
        none sourcesR)

/-- Helper building an `AdapterModel`. -/
def mkAdapter (key nm : String) (lat lng : Option ℚ) (cty : Option String) :
    AdapterModel :=
  { source_key := key, name := nm, latitude := lat, longitude := lng, city := cty }

/-- The `NEWS_SOURCES` registry of `chomp/sources/__init__.py`, restricted to the
data `get_local_sources_with_locations` reads: display name, key, and the optional
location properties.  Only `iexaminer`, `gambit` and `slugmag` define
`latitude`/`longitude`/`city`; every other adapter class has no such attributes. -/
def NEWS_SOURCES_model : List (String × AdapterModel) :=
  [("apnews", mkAdapter "apnews" "AP News" none none none),
   ("austinchronicle", mkAdapter "austinchronicle" "Austin Chronicle" none none none),
   ("bbc", mkAdapter "bbc" "BBC News" none none none),
   ("doorcountypulse", mkAdapter "doorcountypulse" "Door County Pulse" none none none),
   ("urbanmilwaukee", mkAdapter "urbanmilwaukee" "Urban Milwaukee" none none none),
   ("stlmag", mkAdapter "stlmag" "STL Magazine" none none none),
   ("blockclubchicago",
     mkAdapter "blockclubchicago" "Block Club Chicago" none none none),
   ("gothamist", mkAdapter "gothamist" "The Gothamist" none none none),
   ("303magazine", mkAdapter "303magazine" "303 Magazine" none none none),
   ("iexaminer",
     mkAdapter "iexaminer" "iExaminer" (some ((476062 : ℚ) / 10000))
       (some (-(1223321 : ℚ) / 10000)) (some "Seattle, WA")),
   ("gambit",
     mkAdapter "gambit" "Gambit" (some ((299511 : ℚ) / 10000))
       (some (-(900715 : ℚ) / 10000)) (some "New Orleans, LA")),
   ("reuters", mkAdapter "reuters" "Reuters" none none none),
   ("slugmag",
     mkAdapter "slugmag" "Slug Magazine" (some ((407608 : ℚ) / 10000))
       (some (-(1118910 : ℚ) / 10000)) (some "Salt Lake City, UT")),
   ("folioweekly", mkAdapter "folioweekly" "Folio Weekly" none none none)]

/-- The `LOCAL_SOURCES` key list of `chomp/sources/__init__.py` (lines 52-56). -/
def LOCAL_SOURCES : List String :=
  ["austinchronicle", "doorcountypulse", "urbanmilwaukee", "stlmag",
   "blockclubchicago", "gothamist", "303magazine", "iexaminer",
   "gambit", "slugmag", "folioweekly"]

/- ## Concrete instances used to exercise the theorems -/

/-- A full seen list: 100 pairwise distinct URLs. -/
def seen100 : List String :=
  (List.range 100).map (fun n => String.mk (List.replicate n 'a'))

/-- A source whose single discovered candidate is a percent-encoded variant of an
already seen URL (as in `test_skips_seen_after_normalization`). -/
def srcSeenEncoded : SourceModel :=
  { searchResults := ["https://example.com/article%2F123"]
    fetchResult := fun _ => Except.ok "<html></html>"
    extractResult := fun _ =>
      { title := none, url := none, pub_date := none, content := none,
        image_url := none, topics := [] } }

/-- Extraction result of the first candidate in the two-candidate scenario of
`test_continues_to_next_on_extract_failure`: the title is missing. -/
def extractFirstFailed : ExtractData :=
  { title := none, url := some "https://example.com/first", pub_date := none,
    content := none, image_url := none, topics := [] }

/-- Extraction result of the second candidate in the two-candidate scenario:
a genuine success. -/
def extractSecondOk : ExtractData :=
  { title := some "Second Article", url := some "https://example.com/second",
    pub_date := none, content := some "Content", image_url := none, topics := [] }

/-- A source with two candidates whose first fails extraction and whose second
succeeds; the fetched document is the URL itself. -/
def srcTwoCandidates : SourceModel :=
  { searchResults := ["https://example.com/first", "https://example.com/second"]
    fetchResult := fun u => Except.ok u
    extractResult := fun doc =>
      if doc = "https://example.com/first" then extractFirstFailed
      else extractSecondOk }

/-- A summarizer returning a fixed successful result. -/
def summFixed : String → Option SummaryResult :=
  fun _ => some { ai_title := some "Title", summary := "Summary" }

/-- Extraction result used in the graceful-degradation scenario of
`test_graceful_degradation_on_summary_failure`. -/
def extractDegraded : ExtractData :=
  { title := some "Test Article", url := some "https://example.com/article",
    pub_date := none, content := some "Article content", image_url := none,
    topics := [] }

/-- A source with one successfully extracting candidate. -/
def srcOneCandidate : SourceModel :=
  { searchResults := ["https://example.com/article"]
    fetchResult := fun u => Except.ok u
    extractResult := fun _ => extractDegraded }


/- ## Lemmas about the URL Canonicalizer -/

theorem pdoAux_of_no_percent (fuel : Nat) :
    ∀ l : List Char, '%' ∉ l → pdoAux fuel l = l := by
  induction fuel with
  | zero => intro l _; rfl
  | succ n ih =>
    intro l h
    match l with
    | [] => rfl
    | c :: rest =>
      have hc : c ≠ '%' := fun e => h (e ▸ List.mem_cons_self c rest)
      rw [pdoAux.eq_def]
      dsimp only
      rw [if_neg hc, ih rest (fun hm => h (List.mem_cons_of_mem c hm))]

theorem percentDecodeOnce_of_no_percent (l : List Char) (h : '%' ∉ l) :
    percentDecodeOnce l = l :=
  pdoAux_of_no_percent l.length l h

/-- Claim C3 counterexample: canonicalization is not idempotent.  The repository's
own test `test_url_with_double_encoding` pins the single-decode behaviour
`%252F ↦ %2F`, and a second application decodes the remaining `%2F` to `/`. -/
theorem normalize_url_not_idempotent :
    normalize_url (normalize_url "https://example.com/article/%252Fpath") ≠
      normalize_url "https://example.com/article/%252Fpath" := by decide

/-- Claim C3 (amended): canonicalization is total by construction and, while not
idempotent in general, it is idempotent on every URL whose canonical form contains
no percent character: if `normalize_url u` is percent-free then applying
`normalize_url` again yields it unchanged. -/
theorem normalize_url_idempotent_of_canonical (u : String)
    (h : '%' ∉ (normalize_url u).data) :
    normalize_url (normalize_url u) = normalize_url u := by
  show String.mk ((percentDecodeOnce (normalize_url u).data).takeWhile
      (fun c => c ≠ '#')) = normalize_url u
  rw [percentDecodeOnce_of_no_percent _ h]
  have h2 : (normalize_url u).data.takeWhile (fun c => c ≠ '#') =
      (normalize_url u).data := by
    show ((percentDecodeOnce u.data).takeWhile (fun c => c ≠ '#')).takeWhile
        (fun c => c ≠ '#') = _
    exact List.takeWhile_idem
  rw [h2]

/-- Claim C3 witness: a URL with a fragment and one layer of percent-encoding
canonicalizes to a percent-free form, on which canonicalization is idempotent. -/
theorem normalize_url_idempotent_of_canonical_witness :
    normalize_url (normalize_url "https://x.com/a%2Fb#frag") =
      normalize_url "https://x.com/a%2Fb#frag" :=
  normalize_url_idempotent_of_canonical "https://x.com/a%2Fb#frag" (by decide)

/-- Claim C4: canonicalization applies exactly one percent-decoding pass over the
whole string (`%252F` yields `%2F`, the literal `%25` is not decoded again) and
clears the fragment while preserving everything before the first `#` — in
particular scheme, authority, path and query; a percent-free URL passes through
with only its fragment removed, and a percent-free, fragment-free URL is returned
unchanged. -/
theorem normalize_url_single_decode_strips_fragment :
    normalize_url "https://example.com/article/%252Fpath" =
      "https://example.com/article/%2Fpath" ∧
    normalize_url "https://x.com/a?x=1#y" = "https://x.com/a?x=1" ∧
    normalize_url "https://example.com/article%2F123#section" =
      "https://example.com/article/123" ∧
    (∀ u : String, '%' ∉ u.data →
      (normalize_url u).data = u.data.takeWhile (fun c => c ≠ '#')) ∧
    (∀ u : String, '%' ∉ u.data → '#' ∉ u.data → normalize_url u = u) := by
  refine ⟨by decide, by decide, by decide, ?_, ?_⟩
  · intro u hp
    show (percentDecodeOnce u.data).takeWhile (fun c => c ≠ '#') = _
    rw [percentDecodeOnce_of_no_percent _ hp]
  · intro u hp hh
    show String.mk ((percentDecodeOnce u.data).takeWhile (fun c => c ≠ '#')) = u
    rw [percentDecodeOnce_of_no_percent _ hp]
    have : u.data.takeWhile (fun c => c ≠ '#') = u.data := by
      rw [List.takeWhile_eq_self_iff]
      intro x hx
      simp only [ne_eq, decide_eq_true_eq]
      exact fun e => hh (e ▸ hx)
    rw [this]

/-- Claim C4 witness: a plain URL without escapes or fragment is unchanged. -/
theorem normalize_url_single_decode_strips_fragment_witness :
    normalize_url "https://example.com/article/123" = "https://example.com/article/123" :=
  normalize_url_single_decode_strips_fragment.2.2.2.2 "https://example.com/article/123"
    (by decide) (by decide)

/- ## Lemmas about the Seen-Set Store -/

theorem dictLookup_mem {β : Type} {store : List (String × β)} {k : String} {v : β}
    (h : dictLookup store k = some v) : (k, v) ∈ store := by
  induction store with
  | nil => simp [dictLookup] at h
  | cons p rest ih =>
    obtain ⟨k2, v2⟩ := p
    rw [dictLookup] at h
    by_cases e : k2 = k
    · rw [if_pos e] at h
      injection h with hv
      subst e; subst hv
      exact List.mem_cons_self _ _
    · rw [if_neg e] at h
      exact List.mem_cons_of_mem _ (ih h)

theorem dictLookup_dictInsert_ne {β : Type} (store : List (String × β)) (k k2 : String)
    (v : β) (h : k2 ≠ k) : dictLookup (dictInsert store k v) k2 = dictLookup store k2 := by
  induction store with
  | nil => simp [dictInsert, dictLookup, if_neg (Ne.symm h)]
  | cons q rest ih =>
    obtain ⟨k3, v3⟩ := q
    by_cases e : k3 = k
    · rw [dictInsert, if_pos e, dictLookup, dictLookup, if_neg (Ne.symm h), if_neg]
      rw [e]
      exact Ne.symm h
    · rw [dictInsert, if_neg e, dictLookup, dictLookup]
      by_cases e2 : k3 = k2
      · rw [if_pos e2, if_pos e2]
      · rw [if_neg e2, if_neg e2, ih]

theorem dictInsert_self {β : Type} {store : List (String × β)} {k : String} {v : β}
    (h : dictLookup store k = some v) : dictInsert store k v = store := by
  induction store with
  | nil => simp [dictLookup] at h
  | cons q rest ih =>
    obtain ⟨k2, v2⟩ := q
    rw [dictLookup] at h
    by_cases e : k2 = k
    · rw [if_pos e] at h
      injection h with hv
      rw [dictInsert, if_pos e, ← e, hv]
    · rw [if_neg e] at h
      rw [dictInsert, if_neg e, ih h]

theorem mem_dictInsert {β : Type} {store : List (String × β)} {k : String} {v : β}
    {p : String × β} (h : p ∈ dictInsert store k v) : p = (k, v) ∨ p ∈ store := by
  induction store with
  | nil =>
    rw [dictInsert] at h
    left
    simpa using h
  | cons q rest ih =>
    obtain ⟨k2, v2⟩ := q
    rw [dictInsert] at h
    by_cases e : k2 = k
    · rw [if_pos e] at h
      rcases List.mem_cons.mp h with h1 | h2
      · exact Or.inl h1
      · exact Or.inr (List.mem_cons_of_mem _ h2)
    · rw [if_neg e] at h
      rcases List.mem_cons.mp h with h1 | h2
      · exact Or.inr (h1 ▸ List.mem_cons_self _ _)
      · rcases ih h2 with h3 | h4
        · exact Or.inl h3
        · exact Or.inr (List.mem_cons_of_mem _ h4)

theorem markSeenCat_of_mem {l : List String} {u : String} (h : u ∈ l) :
    markSeenCat l u = l := by
  rw [markSeenCat, if_pos h]

theorem markSeenCat_append {l : List String} {u : String} (hm : u ∉ l)
    (hlen : l.length < 100) : markSeenCat l u = l ++ [u] := by
  simp only [markSeenCat]
  rw [if_neg hm, if_neg]
  simp only [List.length_append, List.length_singleton]
  omega

theorem markSeenCat_evict {l : List String} {u : String} (hm : u ∉ l)
    (hlen : l.length = 100) : markSeenCat l u = l.drop 1 ++ [u] := by
  simp only [markSeenCat]
  rw [if_neg hm, if_pos (by simp [List.length_append, hlen])]
  have h1 : (l ++ [u]).length - 100 = 1 := by simp [List.length_append, hlen]
  rw [h1]
  cases l with
  | nil => simp at hlen
  | cons a t => simp

theorem markSeenCat_nodup {l : List String} {u : String} (h : l.Nodup) :
    (markSeenCat l u).Nodup := by
  by_cases hm : u ∈ l
  · rw [markSeenCat_of_mem hm]; exact h
  · have h2 : (l ++ [u]).Nodup := by simp [List.nodup_append, h, hm]
    simp only [markSeenCat]
    rw [if_neg hm]
    split
    · exact List.Nodup.sublist (List.drop_sublist _ _) h2
    · exact h2

theorem markSeenCat_length_le {l : List String} {u : String} (h : l.length ≤ 100) :
    (markSeenCat l u).length ≤ 100 := by
  by_cases hm : u ∈ l
  · rw [markSeenCat_of_mem hm]; exact h
  · simp only [markSeenCat]
    rw [if_neg hm]
    split
    · rw [List.length_drop]; omega
    · next h2 =>
      simp only [List.length_append, List.length_singleton] at h2 ⊢
      omega

theorem storeInv_mark_url_seen {store : List (String × List String)}
    (h : storeInv store) (url : Option String) (cat : String) :
    storeInv (mark_url_seen store url cat) := by
  cases url with
  | none => exact h
  | some u =>
    by_cases he : u = ""
    · simpa [mark_url_seen, he] using h
    · simp only [mark_url_seen, if_neg he]
      intro p hp
      rcases mem_dictInsert hp with h1 | h2
      · have hold : (get_seen_urls store cat).Nodup ∧
            (get_seen_urls store cat).length ≤ 100 := by
          unfold get_seen_urls
          cases hl : dictLookup store cat with
          | none => simp
          | some v => simpa using h _ (dictLookup_mem hl)
        rw [h1]
        exact ⟨markSeenCat_nodup hold.1, markSeenCat_length_le hold.2⟩
      · exact h p h2

theorem storeInv_foldl (ops : List (Option String × String)) :
    ∀ store, storeInv store →
      storeInv (ops.foldl (fun st p => mark_url_seen st p.1 p.2) store) := by
  induction ops with
  | nil => exact fun store h => h
  | cons op rest ih =>
    exact fun store h => ih _ (storeInv_mark_url_seen h op.1 op.2)

theorem storeInv_applyOps (ops : List (Option String × String)) :
    storeInv (applyOps ops) :=
  storeInv_foldl ops [] (fun p hp => absurd hp (List.not_mem_nil p))

/-- Claim C2: for every category, the seen-URL collection after any sequence of
`mark_url_seen` operations holds at most 100 pairwise distinct canonical URLs in
insertion order (oldest first); a `None` or empty URL is a no-op that does not
raise; inserting an already present URL leaves the store unchanged; a fresh URL is
appended at the end while below capacity, and an insertion into a full collection
evicts exactly the oldest entry so that exactly 100 entries remain. -/
theorem mark_url_seen_bounded_fifo :
    (∀ store cat, mark_url_seen store none cat = store) ∧
    (∀ store cat, mark_url_seen store (some "") cat = store) ∧
    (∀ store cat u, u ≠ "" → u ∈ get_seen_urls store cat →
      mark_url_seen store (some u) cat = store) ∧
    (∀ (l : List String) (u : String), u ∉ l → l.length < 100 →
      markSeenCat l u = l ++ [u]) ∧
    (∀ (l : List String) (u : String), u ∉ l → l.length = 100 →
      markSeenCat l u = l.drop 1 ++ [u] ∧ (markSeenCat l u).length = 100) ∧
    (∀ ops cat, (get_seen_urls (applyOps ops) cat).Nodup ∧
      (get_seen_urls (applyOps ops) cat).length ≤ 100) := by
  refine ⟨fun store cat => rfl, fun store cat => rfl, ?_, ?_, ?_, ?_⟩
  · intro store cat u hu hmem
    simp only [mark_url_seen, if_neg hu]
    rw [markSeenCat_of_mem hmem]
    unfold get_seen_urls at hmem ⊢
    cases hl : dictLookup store cat with
    | none =>
      rw [hl] at hmem
      simp at hmem
    | some v =>
      simpa using dictInsert_self hl
  · exact fun l u hm hl => markSeenCat_append hm hl
  · intro l u hm hl
    refine ⟨markSeenCat_evict hm hl, ?_⟩
    rw [markSeenCat_evict hm hl]
    simp [List.length_append, List.length_drop, hl]
  · intro ops cat
    have h := storeInv_applyOps ops
    unfold get_seen_urls
    cases hl : dictLookup (applyOps ops) cat with
    | none => simp
    | some v => simpa using h _ (dictLookup_mem hl)

/-- Claim C2 witness: inserting a fresh URL into a full collection of 100 distinct
entries evicts exactly the oldest and keeps exactly 100 entries. -/
theorem mark_url_seen_bounded_fifo_witness :
    markSeenCat seen100 "b" = seen100.drop 1 ++ ["b"] ∧
      (markSeenCat seen100 "b").length = 100 :=
  mark_url_seen_bounded_fifo.2.2.2.2.1 seen100 "b" (by decide) (by decide)

/-- Claim C10: `mark_url_seen` on one category leaves the seen collection of every
other category unchanged. -/
theorem mark_url_seen_frame (store : List (String × List String)) (url : Option String)
    (c1 c2 : String) (h : c2 ≠ c1) :
    get_seen_urls (mark_url_seen store url c1) c2 = get_seen_urls store c2 := by
  cases url with
  | none => rfl
  | some u =>
    by_cases he : u = ""
    · simp [mark_url_seen, he]
    · simp only [mark_url_seen, if_neg he]
      unfold get_seen_urls
      rw [dictLookup_dictInsert_ne _ _ _ _ h]

/-- Claim C10 witness: marking a URL in `world` does not change `color`. -/
theorem mark_url_seen_frame_witness :
    get_seen_urls (mark_url_seen [("world", []), ("color", [])]
        (some "https://example.com/world-article") "world") "color" =
      get_seen_urls [("world", []), ("color", [])] "color" :=
  mark_url_seen_frame [("world", []), ("color", [])]
    (some "https://example.com/world-article") "world" "color" (by decide)

/- ## Lemmas about the Discovery Pipeline -/

theorem scanCandidates_all_seen (sourceKey : String) (src : SourceModel)
    (summarize : String → Option SummaryResult) (seen : List String) :
    ∀ urls : List String, (∀ u ∈ urls, normalize_url u ∈ seen) →
      scanCandidates sourceKey src summarize seen urls = (none, []) := by
  intro urls h
  induction urls with
  | nil => rfl
  | cons u rest ih =>
    have hu : normalize_url u ∈ seen := h u (List.mem_cons_self u rest)
    rw [scanCandidates, if_pos hu]
    exact ih (fun x hx => h x (List.mem_cons_of_mem u hx))

/-- Claim C1: when every candidate URL discovered by every resolvable source in the
key list canonicalizes to a member of the Seen-Set, the pipeline returns the absence
value and the fetch trace is empty — no adapter's fetch is ever invoked. -/
theorem fetch_article_skips_all_seen (registry : List (String × SourceModel))
    (summarize : String → Option SummaryResult) (keys seen : List String)
    (h : ∀ k ∈ keys, ∀ src, getSource registry k = some src →
      ∀ u ∈ src.searchResults, normalize_url u ∈ seen) :
    fetch_article_from_sources registry summarize keys seen = (none, []) := by
  induction keys with
  | nil => rfl
  | cons k rest ih =>
    have hrest : ∀ k2 ∈ rest, ∀ src, getSource registry k2 = some src →
        ∀ u ∈ src.searchResults, normalize_url u ∈ seen :=
      fun k2 hk2 => h k2 (List.mem_cons_of_mem k hk2)
    rw [fetch_article_from_sources]
    cases hg : getSource registry k with
    | none => exact ih hrest
    | some src =>
      have hscan := scanCandidates_all_seen k src summarize seen src.searchResults
        (h k (List.mem_cons_self k rest) src hg)
      simp only [hscan, ih hrest, List.nil_append]

/-- Claim C1 witness: a discovered candidate differing from the seen URL only by
percent-encoding is skipped before any fetch and the pipeline returns absence, as in
`test_skips_seen_after_normalization`. -/
theorem fetch_article_skips_all_seen_witness :
    fetch_article_from_sources [("testsource", srcSeenEncoded)] (fun _ => none)
      ["testsource"] ["https://example.com/article/123"] = (none, []) :=
  fetch_article_skips_all_seen [("testsource", srcSeenEncoded)] (fun _ => none)
    ["testsource"] ["https://example.com/article/123"] (by
      intro k hk src hsrc u hu
      have hk2 : k = "testsource" := by simpa using hk
      subst hk2
      have h0 : getSource [("testsource", srcSeenEncoded)] "testsource" =
          some srcSeenEncoded := rfl
      rw [h0] at hsrc
      injection hsrc with h1
      subst h1
      have hu2 : u = "https://example.com/article%2F123" := by
        simpa [srcSeenEncoded] using hu
      subst hu2
      decide)

/-- Claim C5: with one source returning two candidates where the first candidate's
extraction yields a record with a missing title and the second extracts
successfully, the pipeline returns the record built from the second candidate (both
candidates having been fetched — the per-candidate failure does not abort the
scan). -/
theorem fetch_article_continues_after_extract_failure
    (key : String) (src : SourceModel) (summarize : String → Option SummaryResult)
    (u1 u2 doc1 doc2 : String) (d1 d2 : ExtractData)
    (hk : pyLower key = key)
    (hs : src.searchResults = [u1, u2])
    (hf1 : src.fetchResult u1 = Except.ok doc1)
    (hf2 : src.fetchResult u2 = Except.ok doc2)
    (he1 : src.extractResult doc1 = d1)
    (he2 : src.extractResult doc2 = d2)
    (h1 : d1.title.getD "" = "")
    (h2t : d2.title.getD "" ≠ "")
    (h2u : d2.url.getD "" ≠ "") :
    fetch_article_from_sources [(key, src)] summarize [key] [] =
      (some (buildArticle key d2 (enrich summarize d2)), [u1, u2]) := by
  have hg : getSource [(key, src)] key = some src := by
    simp [getSource, dictLookup, hk]
  rw [fetch_article_from_sources, hg]
  simp only [hs, scanCandidates, hf1, hf2, he1, he2, List.not_mem_nil, if_false,
    h1, h2t, h2u, ne_eq, not_true_eq_false, false_and, if_true]
  simp [h1, h2t, h2u]

/-- Claim C5 witness: the concrete two-candidate scenario of
`test_continues_to_next_on_extract_failure`. -/
theorem fetch_article_continues_after_extract_failure_witness :
    fetch_article_from_sources [("testsource", srcTwoCandidates)] summFixed
      ["testsource"] [] =
      (some (buildArticle "testsource" extractSecondOk
        (enrich summFixed extractSecondOk)),
       ["https://example.com/first", "https://example.com/second"]) :=
  fetch_article_continues_after_extract_failure "testsource" srcTwoCandidates
    summFixed "https://example.com/first" "https://example.com/second"
    "https://example.com/first" "https://example.com/second"
    extractFirstFailed extractSecondOk rfl rfl rfl rfl rfl rfl rfl
    (by decide) (by decide)

/- ## Summarizer claims -/

/-- Claim C7: `generate_summary` returns absent immediately — without the external
call being consulted — when the content is absent or empty or when the API key is
missing or empty; it returns absent on any external-call failure; it only ever
sends the content truncated to 4000 characters (its result depends on the external
call only at that truncated input); and an absent Summarizer result still yields a
returned Article Record whose `ai_title` and `summary` are empty strings while the
pipeline returns the record normally. -/
theorem generate_summary_graceful :
    (∀ k f, generate_summary none k f = none) ∧
    (∀ k f, generate_summary (some "") k f = none) ∧
    (∀ c f, generate_summary (some c) none f = none) ∧
    (∀ c f, generate_summary (some c) (some "") f = none) ∧
    (∀ c k f e, c ≠ "" → k ≠ "" → f (c.take 4000) = Except.error e →
      generate_summary (some c) (some k) f = none) ∧
    (∀ c k f g, f (c.take 4000) = g (c.take 4000) →
      generate_summary (some c) (some k) f = generate_summary (some c) (some k) g) ∧
    (∀ key d, (buildArticle key d none).ai_title = "" ∧
      (buildArticle key d none).summary = "" ∧
      (buildArticle key d none).title = d.title.getD "") ∧
    (∀ key src summarize u doc d, pyLower key = key →
      src.searchResults = [u] → src.fetchResult u = Except.ok doc →
      src.extractResult doc = d → d.title.getD "" ≠ "" → d.url.getD "" ≠ "" →
      enrich summarize d = none →
      fetch_article_from_sources [(key, src)] summarize [key] [] =
        (some (buildArticle key d none), [u])) := by
  refine ⟨fun k f => rfl, fun k f => rfl, ?_, ?_, ?_, ?_, fun key d => ⟨rfl, rfl, rfl⟩, ?_⟩
  · intro c f
    by_cases hc : c = "" <;> simp [generate_summary, hc]
  · intro c f
    by_cases hc : c = "" <;> simp [generate_summary, hc]
  · intro c k f e hc hk hf
    simp [generate_summary, hc, hk, hf]
  · intro c k f g hfg
    unfold generate_summary
    dsimp only
    rw [hfg]
  · intro key src summarize u doc d hk hs hf he ht hu henr
    have hg : getSource [(key, src)] key = some src := by
      simp [getSource, dictLookup, hk]
    rw [fetch_article_from_sources, hg]
    simp only [hs, scanCandidates, hf, he, List.not_mem_nil, if_false, henr]
    simp [ht, hu]

/-- Claim C7 witness: a failing external call yields absence at a concrete input,
and the concrete degradation scenario of
`test_graceful_degradation_on_summary_failure` returns the record with empty
`ai_title` and `summary`. -/
theorem generate_summary_graceful_witness :
    generate_summary (some "Article content") (some "test-key")
      (fun _ => Except.error ()) = none ∧
    fetch_article_from_sources [("testsource", srcOneCandidate)] (fun _ => none)
      ["testsource"] [] =
      (some (buildArticle "testsource" extractDegraded none),
       ["https://example.com/article"]) :=
  ⟨generate_summary_graceful.2.2.2.2.1 "Article content" "test-key"
      (fun _ => Except.error ()) () (by decide) (by decide) rfl,
   generate_summary_graceful.2.2.2.2.2.2.2 "testsource" srcOneCandidate
      (fun _ => none) "https://example.com/article" "https://example.com/article"
      extractDegraded rfl rfl rfl rfl (by decide) (by decide) rfl⟩

/- ## AP News discover step -/

/-- Claim C6 evidence: `APNewsSource.search` performs no exception handling, so a
transport failure propagates to the caller instead of yielding the empty list, and
a call without a query raises `TypeError` from `urllib.parse.quote(None)` — in both
cases contradicting `test_apnews_search_handles_http_error`, which patches the
transport to raise `RequestException`, calls `search()` with no argument, and
expects the empty list.  An empty results page does return the empty list. -/
theorem apnews_search_propagates_transport_failure :
    apnews_search (some "test") (Except.error PyErr.requestException) (fun _ => []) =
      Except.error PyErr.requestException ∧
    apnews_search none (Except.ok "<html><body></body></html>") (fun _ => []) =
      Except.error PyErr.typeError ∧
    apnews_search (some "q") (Except.ok "<html><body></body></html>") (fun _ => []) =
      Except.ok [] ∧
    (∀ (e : PyErr) (promoHrefs : String → List (Option String)) (q : String),
      apnews_search (some q) (Except.error e) promoHrefs = Except.error e) :=
  ⟨rfl, rfl, rfl, fun _e _promoHrefs _q => rfl⟩

/- ## Registry location filtering -/

/-- Claim C9 evidence: with the actual registry and `LOCAL_SOURCES` configuration,
resolving the located local sources raises `AttributeError` — the very first key,
`austinchronicle`, resolves to an adapter class that declares no `latitude`
property, and `get_local_sources_with_locations` reads `source.latitude` without a
guard, so a nearest-source query raises instead of excluding the location-less
adapter. -/
theorem get_local_sources_raises_attribute_error :
    get_local_sources_with_locations NEWS_SOURCES_model LOCAL_SOURCES =
      Except.error PyErr.attributeError := rfl

/- ## Lemmas about the Geolocation Resolver -/

theorem firstArgmin_eq_none_iff {α β : Type} [LinearOrder β] (dist : α → β)
    (l : List α) : firstArgmin dist l = none ↔ l = [] := by
  cases l with
  | nil => simp [firstArgmin]
  | cons s rest =>
    simp only [firstArgmin]
    cases firstArgmin dist rest with
    | none => simp
    | some r => by_cases h : dist r < dist s <;> simp [h]

theorem firstArgmin_min {α β : Type} [LinearOrder β] (dist : α → β) :
    ∀ (l : List α) (w : α), firstArgmin dist l = some w →
      ∀ x ∈ l, dist w ≤ dist x := by
  intro l
  induction l with
  | nil => intro w h; simp [firstArgmin] at h
  | cons s rest ih =>
    intro w h x hx
    rw [firstArgmin] at h
    cases hr : firstArgmin dist rest with
    | none =>
      have hrest : rest = [] := (firstArgmin_eq_none_iff dist rest).mp hr
      rw [hr] at h
      dsimp only at h
      injection h with h1
      subst h1
      subst hrest
      rcases List.mem_cons.mp hx with h2 | h2
      · exact h2 ▸ le_refl _
      · simp at h2
    | some r =>
      rw [hr] at h
      dsimp only at h
      by_cases hlt : dist r < dist s
      · rw [if_pos hlt] at h
        injection h with h1
        subst h1
        rcases List.mem_cons.mp hx with h2 | h2
        · exact h2 ▸ le_of_lt hlt
        · exact ih r hr x h2
      · rw [if_neg hlt] at h
        injection h with h1
        subst h1
        rcases List.mem_cons.mp hx with h2 | h2
        · exact h2 ▸ le_refl _
        · exact le_trans (le_of_not_lt hlt) (ih r hr x h2)

theorem firstArgmin_first {α β : Type} [LinearOrder β] (dist : α → β) :
    ∀ (l : List α) (w : α), firstArgmin dist l = some w →
      ∃ l1 l2, l = l1 ++ w :: l2 ∧ ∀ x ∈ l1, dist w < dist x := by
  intro l
  induction l with
  | nil => intro w h; simp [firstArgmin] at h
  | cons s rest ih =>
    intro w h
    rw [firstArgmin] at h
    cases hr : firstArgmin dist rest with
    | none =>
      rw [hr] at h
      dsimp only at h
      injection h with h1
      subst h1
      exact ⟨[], rest, rfl, by simp⟩
    | some r =>
      rw [hr] at h
      dsimp only at h
      by_cases hlt : dist r < dist s
      · rw [if_pos hlt] at h
        injection h with h1
        subst h1
        obtain ⟨l1, l2, heq, hgt⟩ := ih r hr
        refine ⟨s :: l1, l2, by rw [heq, List.cons_append], ?_⟩
        intro x hx
        rcases List.mem_cons.mp hx with h2 | h2
        · exact h2 ▸ hlt
        · exact hgt x h2
      · rw [if_neg hlt] at h
        injection h with h1
        subst h1
        exact ⟨[], rest, rfl, by simp⟩

theorem findNearestLoop_some {α β : Type} [LinearOrder β] (dist : α → β) :
    ∀ (l : List α) (b : α),
      findNearestLoop dist (some (b, dist b)) l =
        (firstArgmin dist (b :: l)).map (fun w => (w, dist w)) := by
  intro l
  induction l with
  | nil => intro b; simp [findNearestLoop, firstArgmin]
  | cons s rest ih =>
    intro b
    rw [findNearestLoop]
    by_cases hlt : dist s < dist b
    · rw [if_pos hlt, ih s]
      have key : firstArgmin dist (b :: s :: rest) = firstArgmin dist (s :: rest) := by
        simp only [firstArgmin]
        cases hr : firstArgmin dist rest with
        | none =>
          have h1 : dist s < dist b := hlt
          simp [h1]
        | some r =>
          by_cases hrs : dist r < dist s
          · have h1 : dist r < dist b := lt_trans hrs hlt
            simp [hrs, h1]
          · simp [hrs, hlt]
      rw [key]
    · rw [if_neg hlt, ih b]
      have key : firstArgmin dist (b :: s :: rest) = firstArgmin dist (b :: rest) := by
        simp only [firstArgmin]
        cases hr : firstArgmin dist rest with
        | none => simp [hlt]
        | some r =>
          by_cases hrs : dist r < dist s
          · simp [hrs]
          · have h2 : ¬ dist r < dist b :=
              fun h3 => hrs (lt_of_lt_of_le h3 (le_of_not_lt hlt))
            simp [hrs, hlt, h2]
      rw [key]

theorem findNearestLoop_none_eq {α β : Type} [LinearOrder β] (dist : α → β)
    (l : List α) :
    findNearestLoop dist none l = (firstArgmin dist l).map (fun w => (w, dist w)) := by
  cases l with
  | nil => rfl
  | cons s rest =>
    rw [findNearestLoop]
    exact findNearestLoop_some dist rest s

/-- Claim C8 evidence: on the shipped registry and `LOCAL_SOURCES` configuration,
`find_nearest_source` raises `AttributeError` for every coordinate pair — its
internal `get_local_sources_with_locations()` call aborts at the first local key,
`austinchronicle`, whose adapter class declares no `latitude` property — so the
resolver never reaches the distance loop and never returns a descriptor or the
absence value. -/
theorem find_nearest_source_raises_attribute_error (lat lng : ℝ) :
    find_nearest_source lat lng NEWS_SOURCES_model LOCAL_SOURCES =
      Except.error PyErr.attributeError := rfl
